import Mathlib

/-!
Shallow embedding of `src/server.py` (asyncio chat + file relay server).

Modelling conventions:
* A session is identified by a small natural number (its writer id).
  The registry `clients` (src/server.py line 11) is an association list
  `List (Name × Nat)` in insertion order, matching a Python dict.
* I/O performed by the handler is recorded as a list of events `Ev`:
  `Ev.send w item` is `w.write(...)` of either one JSON control frame or one
  raw chunk of file-body bytes; `Ev.close w` is `writer.close()`;
  `Ev.acquire` / `Ev.release` are entry/exit of `async with lock:` blocks,
  recorded in source order. `asyncio.Lock` is not reentrant, so an
  `Ev.acquire` occurring while the same task already holds the lock never
  completes; the function `perform` below computes the prefix of a recorded
  trace that actually executes under that rule.
* A peer whose connection is lost is modelled by `dead : Nat → Bool`:
  `await writer.drain()` raises exactly for dead writers, while
  `writer.write` (a buffering call in asyncio) does not raise.
* Inbound file-body bytes are a `List Nat`; `reader.read(n)` returns
  `min n` available bytes and `reader.readexactly(n)` consumes
  `min n` available bytes (raising, caught by the caller, when short).
-/

namespace Server

abbrev Name := String

/-- Outbound JSON control frames, by the fields the server writes
(`{"type": ...}` dictionaries in src/server.py). -/
inductive OutFrame where
  | error (text : String)
  | ok (text : String)
  | msg (sender : String) (text : String)
  | fileHeader (sender : String) (filename : String) (size : Nat)
  | users (names : List String)
  deriving DecidableEq, Repr

/-- One item written to a session's outbound stream: a newline-terminated
JSON frame or a raw chunk of relayed file bytes. -/
inductive OutItem where
  | frame (f : OutFrame)
  | chunk (bytes : List Nat)
  deriving DecidableEq, Repr

/-- Events recorded while the server code runs. -/
inductive Ev where
  | acquire
  | release
  | send (w : Nat) (item : OutItem)
  | close (w : Nat)
  deriving DecidableEq, Repr

/-- Inbound control frames, by the fields `handle_client` reads from the
parsed JSON header (src/server.py lines 63-81). `to = none` models a
missing `"to"` key; `some ""` an empty one (both falsy in Python). -/
inductive InFrame where
  | msg (dst : Option String) (text : String)
  | file (dst : Option String) (filename : String) (size : Nat)
  | list
  | other
  deriving DecidableEq, Repr

/-- Python truthiness of the optional string `to` (`if to:` / `if not to`). -/
def truthy : Option String → Bool
  | none => false
  | some s => s != ""

/-- Python dict lookup `clients[to]` / membership `to in clients`,
restricted to the writer id. -/
def lookup (cs : List (Name × Nat)) (n : Name) : Option Nat :=
  match cs with
  | [] => none
  | (m, w) :: rest => if m == n then some w else lookup rest n

/-- Python `del clients[n]` guarded by `if n in clients` (dict keys are
unique, so dropping every pair with that key is the same operation). -/
def delKey (cs : List (Name × Nat)) (n : Name) : List (Name × Nat) :=
  cs.filter (fun p => p.1 != n)

/-- The buffering call `writer.write(data)` (src/server.py line 16): in
asyncio it queues the bytes and does not raise for a lost peer. -/
def write (w : Nat) (item : OutItem) : Except String (List Ev) :=
  Except.ok [Ev.send w item]

/-- The flushing call `await writer.drain()` (src/server.py line 18): raises
when the peer's connection is lost. -/
def drain (dead : Nat → Bool) (w : Nat) : Except String Unit :=
  if dead w then Except.error "ConnectionResetError" else Except.ok ()

/-- Embeds `send_json` (src/server.py lines 14-20): `writer.write` runs
outside the `try`, so any exception from it would propagate; `drain` runs
inside `try: ... except Exception: pass`, so its failure is swallowed. -/
def send_json (dead : Nat → Bool) (w : Nat) (obj : OutFrame) :
    Except String (List Ev) :=
  match write w (OutItem.frame obj) with
  | Except.error e => Except.error e
  | Except.ok evs =>
    match drain dead w with
    | Except.ok _ => Except.ok evs
    | Except.error _ => Except.ok evs

/-- The events produced by an `await send_json(...)` call at a call site
that does not guard it with `try` (it never raises; see `send_json_ok`). -/
def sendJsonEvs (dead : Nat → Bool) (w : Nat) (obj : OutFrame) : List Ev :=
  match send_json dead w obj with
  | Except.ok evs => evs
  | Except.error _ => []

/-- Embeds the loop body of `broadcast` (src/server.py lines 132-137):
iterate over the registry in order, `try: await send_json(...)
except Exception: to_remove.append(n)`. Returns the events and the
`to_remove` list. -/
def broadcastLoop (dead : Nat → Bool) (obj : OutFrame) :
    List (Name × Nat) → List Ev × List Name
  | [] => ([], [])
  | (n, w) :: rest =>
    let step := broadcastLoop dead obj rest
    match send_json dead w obj with
    | Except.ok evs => (evs ++ step.1, step.2)
    | Except.error _ => (step.1, n :: step.2)

/-- Embeds `broadcast` (src/server.py lines 130-140): everything — the
sends and the deferred deletions — happens inside `async with lock:`.
Returns the recorded events and the registry after the deletion loop. -/
def broadcast (dead : Nat → Bool) (cs : List (Name × Nat)) (obj : OutFrame) :
    List Ev × List (Name × Nat) :=
  let step := broadcastLoop dead obj cs
  (Ev.acquire :: step.1 ++ [Ev.release], step.2.foldl delKey cs)

/-- Embeds `broadcast_users` (src/server.py lines 147-150): snapshot the
names under the lock, release it, then call `broadcast`. -/
def broadcast_users (dead : Nat → Bool) (cs : List (Name × Nat)) :
    List Ev × List (Name × Nat) :=
  let step := broadcast dead cs (OutFrame.users (cs.map (fun p => p.1)))
  (Ev.acquire :: Ev.release :: step.1, step.2)

/-- Embeds `send_user_list` (src/server.py lines 142-145): snapshot the
names under the lock, release it, then send only to the requester. -/
def send_user_list (dead : Nat → Bool) (cs : List (Name × Nat)) (self : Nat) :
    List Ev :=
  Ev.acquire :: Ev.release ::
    sendJsonEvs dead self (OutFrame.users (cs.map (fun p => p.1)))

/-- Embeds the file-relay loop (src/server.py lines 94-107): while bytes
remain, `chunk = await reader.read(min(65536, remaining))`, stop on an
empty read, else `w.write(chunk)` (drain failures swallowed, lines
101-104) and decrease `remaining` by `len(chunk)`. The inbound stream is
the byte list `stream`; a read returns the first `min 65536 remaining`
available bytes. Returns the write events and the unread rest of the
stream. -/
def relayLoop (w : Nat) (stream : List Nat) (remaining : Nat) :
    List Ev × List Nat :=
  if h0 : remaining = 0 then ([], stream)
  else
    let chunk := stream.take (min 65536 remaining)
    if hc : chunk = [] then ([], stream)
    else
      let step := relayLoop w (stream.drop chunk.length)
        (remaining - chunk.length)
      (Ev.send w (OutItem.chunk chunk) :: step.1, step.2)
  termination_by remaining
  decreasing_by
    have h1 : 0 < chunk.length := List.length_pos.mpr hc
    simp only [chunk, List.length_take, lt_min_iff] at h1
    simp_wf
    omega

/-- Embeds one iteration of the `REGISTERED` main loop of `handle_client`
(src/server.py lines 63-112) on one parsed header. Arguments: the liveness
oracle `dead`, the registry, the handler's own writer id `self` and
registered `name`, the bytes available on the handler's inbound stream
after the header line, and the parsed frame. Returns the recorded events,
the registry afterwards, and the unread rest of the inbound stream.
The `msg` branch with a truthy `to` does its lookup and send inside
`async with lock:` (lines 69-74); the `file` branch never touches the lock
(lines 78-108). -/
def handleFrame (dead : Nat → Bool) (cs : List (Name × Nat)) (self : Nat)
    (name : Name) (stream : List Nat) :
    InFrame → List Ev × List (Name × Nat) × List Nat
  | InFrame.msg dst text =>
    if truthy dst then
      match lookup cs (dst.getD "") with
      | some w =>
        (Ev.acquire :: sendJsonEvs dead w (OutFrame.msg name text) ++
          [Ev.release], cs, stream)
      | none =>
        (Ev.acquire :: sendJsonEvs dead self (OutFrame.error "user not online")
          ++ [Ev.release], cs, stream)
    else
      let step := broadcast dead cs (OutFrame.msg name text)
      (step.1, step.2, stream)
  | InFrame.file dst filename size =>
    if truthy dst then
      match lookup cs (dst.getD "") with
      | some w =>
        let step := relayLoop w stream size
        (sendJsonEvs dead w (OutFrame.fileHeader name filename size) ++
          step.1, cs, step.2)
      | none =>
        (sendJsonEvs dead self (OutFrame.error "recipient not found"), cs,
          stream.drop size)
    else
      (sendJsonEvs dead self (OutFrame.error "recipient not found"), cs,
        stream.drop size)
  | InFrame.list => (send_user_list dead cs self, cs, stream)
  | InFrame.other =>
    (sendJsonEvs dead self (OutFrame.error "unknown type"), cs, stream)

/-- Embeds the `finally` teardown of `handle_client` (src/server.py lines
117-128) for any session whose `name` variable is set — it runs both when
a registered session's loop ends and when the duplicate-name `return` at
line 44 unwinds, since `name` is assigned at line 40 before the duplicate
check. Inside `async with lock:`, delete the registry entry under `name`
if present and call `broadcast_users()` (a nested acquire of the same
non-reentrant lock), then close the writer. -/
def teardownStep (dead : Nat → Bool) (cs : List (Name × Nat)) (self : Nat)
    (name : Name) : List Ev × List (Name × Nat) :=
  if cs.any (fun p => p.1 == name) then
    let bu := broadcast_users dead (delKey cs name)
    (Ev.acquire :: bu.1 ++ [Ev.release, Ev.close self], bu.2)
  else
    ([Ev.acquire, Ev.release, Ev.close self], cs)

/-- Embeds the registration step of `handle_client` (src/server.py lines
40-50) for a well-formed `register` header carrying `name`, together with
what the duplicate branch triggers afterwards: `name = msg["name"]` runs
at line 40 before the duplicate check, so the `return` at line 44 (after
the error frame and `writer.close()`, all inside `async with lock:`)
releases the lock on unwinding out of the `with` and then runs the
`finally` block — `teardownStep` — where `name in clients` holds for the
EXISTING session's entry. On the success branch the insertion and the
`broadcast_users()` call sit inside `async with lock:`; both branches'
recorded traces contain the nested acquire that `broadcast_users`
performs on the same (non-reentrant) lock. Returns the recorded events,
the registry, and whether the session registered. -/
def registerStep (dead : Nat → Bool) (cs : List (Name × Nat)) (self : Nat)
    (name : Name) : List Ev × List (Name × Nat) × Bool :=
  if cs.any (fun p => p.1 == name) then
    let fin := teardownStep dead cs self name
    (Ev.acquire :: sendJsonEvs dead self (OutFrame.error "name already taken")
      ++ [Ev.close self, Ev.release] ++ fin.1, fin.2, false)
  else
    let bu := broadcast_users dead (cs ++ [(name, self)])
    (Ev.acquire :: bu.1 ++ Ev.release ::
      sendJsonEvs dead self (OutFrame.ok "registered"),
     bu.2, true)

/-- Events of a recorded trace that actually execute when the lock is a
non-reentrant `asyncio.Lock` held `d` times at the start: an `acquire`
attempted while the lock is held never completes (no other task will
release it inside this task's trace), so execution stops there. -/
def perform : Nat → List Ev → List Ev
  | _, [] => []
  | d, Ev.acquire :: rest =>
    if 0 < d then [] else Ev.acquire :: perform (d + 1) rest
  | d, Ev.release :: rest => Ev.release :: perform (d - 1) rest
  | d, Ev.send w i :: rest => Ev.send w i :: perform d rest
  | d, Ev.close w :: rest => Ev.close w :: perform d rest

/-- Whether a trace attempts to acquire the lock at a point where it is
already held (starting from `d` nested holds) — with a non-reentrant
`asyncio.Lock`, a deadlock of the task. -/
def reentrantFrom : Nat → List Ev → Bool
  | _, [] => false
  | d, Ev.acquire :: rest => (d != 0) || reentrantFrom (d + 1) rest
  | d, Ev.release :: rest => reentrantFrom (d - 1) rest
  | d, _ :: rest => reentrantFrom d rest

/-- Whether a trace attempts a reentrant lock acquisition (see
`reentrantFrom`), starting with the lock free. -/
def hasReentrantAcquire (t : List Ev) : Bool := reentrantFrom 0 t

/-- Whether any `send` event of the trace occurs while the lock is held,
starting from `d` nested holds. -/
def sendWhileHeldFrom : Nat → List Ev → Bool
  | _, [] => false
  | d, Ev.acquire :: rest => sendWhileHeldFrom (d + 1) rest
  | d, Ev.release :: rest => sendWhileHeldFrom (d - 1) rest
  | d, Ev.send _ _ :: rest => (d != 0) || sendWhileHeldFrom d rest
  | d, _ :: rest => sendWhileHeldFrom d rest

/-- Whether any `send` event of the trace occurs while the lock is held,
starting with the lock free. -/
def sendWhileHeld (t : List Ev) : Bool := sendWhileHeldFrom 0 t

/-- Bytes delivered to writer `w` by the chunk events of a trace, in
order. -/
def bytesTo (w : Nat) : List Ev → List Nat
  | [] => []
  | Ev.send v (OutItem.chunk b) :: rest =>
    if v == w then b ++ bytesTo w rest else bytesTo w rest
  | _ :: rest => bytesTo w rest

/-- Helper: `send_json` always returns successfully with exactly one frame
written, whether or not the peer is dead — `writer.write` only buffers and
the `drain` failure is swallowed by the `try/except: pass`. -/
theorem send_json_ok (dead : Nat → Bool) (w : Nat) (obj : OutFrame) :
    send_json dead w obj = Except.ok [Ev.send w (OutItem.frame obj)] := by
  unfold send_json write drain
  by_cases h : dead w <;> simp [h]

/-- Helper: the events of an unguarded `send_json` call. -/
theorem sendJsonEvs_eq (dead : Nat → Bool) (w : Nat) (obj : OutFrame) :
    sendJsonEvs dead w obj = [Ev.send w (OutItem.frame obj)] := by
  unfold sendJsonEvs
  rw [send_json_ok]

/-- Helper: the relay loop delivers exactly the first `r` available bytes
(all of them when fewer than `r` remain), leaves the stream positioned
after what it consumed, and writes only nonempty chunks of at most 65536
bytes to the recipient `w`. -/
theorem relayLoop_spec (w : Nat) (r : Nat) : ∀ (s : List Nat),
    bytesTo w (relayLoop w s r).1 = s.take r ∧
    (relayLoop w s r).2 = s.drop r ∧
    ∀ e ∈ (relayLoop w s r).1,
      ∃ c, e = Ev.send w (OutItem.chunk c) ∧ 0 < c.length ∧
        c.length ≤ 65536 := by
  induction r using Nat.strong_induction_on with
  | _ r ih =>
    intro s
    rw [relayLoop.eq_def]
    by_cases h0 : r = 0
    · subst h0
      simp [bytesTo]
    · rw [dif_neg h0]
      by_cases hs : s = []
      · subst hs
        simp [bytesTo]
      · have hm : 0 < min 65536 r := by omega
        have hc : s.take (min 65536 r) ≠ [] := by
          apply List.ne_nil_of_length_pos
          rw [List.length_take]
          have hl := List.length_pos.mpr hs
          omega
        simp only [dif_neg hc]
        have hk1 : 0 < (List.take (65536 ⊓ r) s).length :=
          List.length_pos.mpr hc
        have hk2 : (List.take (65536 ⊓ r) s).length ≤ 65536 ⊓ r := by
          rw [List.length_take]; omega
        have ihk := ih (r - (List.take (65536 ⊓ r) s).length) (by omega)
          (s.drop (List.take (65536 ⊓ r) s).length)
        have htk : s.take ((List.take (65536 ⊓ r) s).length) =
            List.take (65536 ⊓ r) s := by
          rw [List.length_take]
          rcases le_total (65536 ⊓ r) s.length with h | h
          · rw [min_eq_left h]
          · rw [min_eq_right h, List.take_length]
            exact (List.take_of_length_le h).symm
        refine ⟨?_, ?_, ?_⟩
        · simp only [bytesTo, beq_self_eq_true, if_pos]
          rw [ihk.1]
          have hsplit : List.take r s =
              List.take ((List.take (65536 ⊓ r) s).length) s ++
                List.take (r - (List.take (65536 ⊓ r) s).length)
                  (List.drop ((List.take (65536 ⊓ r) s).length) s) := by
            rw [← List.take_add]
            congr 1
            omega
          rw [hsplit, htk]
        · rw [ihk.2.1, List.drop_drop]
          congr 1
          omega
        · intro e he
          rcases List.mem_cons.mp he with h | h
          · exact ⟨List.take (65536 ⊓ r) s, h, hk1, by omega⟩
          · exact ihk.2.2 e h

/-- Helper: since `send_json` never raises, the `broadcast` loop sends the
frame to every registered writer in registry order and collects nobody in
`to_remove`. -/
theorem broadcastLoop_eq (dead : Nat → Bool) (obj : OutFrame) :
    ∀ cs : List (Name × Nat), broadcastLoop dead obj cs =
      (cs.map (fun p => Ev.send p.2 (OutItem.frame obj)), []) := by
  intro cs
  induction cs with
  | nil => rfl
  | cons p rest ih =>
    cases p with
    | mk n w => simp [broadcastLoop, send_json_ok, ih]

/-- Helper: `broadcast` sends to every registered writer inside its lock
section and leaves the registry unchanged. -/
theorem broadcast_eq (dead : Nat → Bool) (cs : List (Name × Nat))
    (obj : OutFrame) :
    broadcast dead cs obj =
      (Ev.acquire :: cs.map (fun p => Ev.send p.2 (OutItem.frame obj)) ++
        [Ev.release], cs) := by
  simp [broadcast, broadcastLoop_eq]

/-- C1: a `file` frame addressed to a registered recipient `w` makes the
server send the `file{from, filename, size}` header to `w` and then relay
the body from the sender's inbound stream to `w` in chunks of at most
65536 bytes; the bytes delivered to `w` are exactly the first `size` bytes
of the sender's stream — all `size` of them when the sender supplies that
many, and exactly the `M`-byte prefix when the stream ends after
`M < size` bytes. -/
theorem file_relay_to_registered (dead : Nat → Bool) (cs : List (Name × Nat))
    (self w : Nat) (name : Name) (stream : List Nat) (t filename : String)
    (size : Nat) (ht : t ≠ "") (hw : lookup cs t = some w) :
    handleFrame dead cs self name stream (InFrame.file (some t) filename size) =
      (Ev.send w (OutItem.frame (OutFrame.fileHeader name filename size)) ::
        (relayLoop w stream size).1, cs, stream.drop size) ∧
    bytesTo w (relayLoop w stream size).1 = stream.take size ∧
    (size ≤ stream.length →
      (bytesTo w (relayLoop w stream size).1).length = size) ∧
    (stream.length < size →
      bytesTo w (relayLoop w stream size).1 = stream) ∧
    ∀ e ∈ (relayLoop w stream size).1,
      ∃ c, e = Ev.send w (OutItem.chunk c) ∧ 0 < c.length ∧
        c.length ≤ 65536 := by
  have hspec := relayLoop_spec w size stream
  refine ⟨?_, hspec.1, ?_, ?_, hspec.2.2⟩
  · simp [handleFrame, truthy, ht, hw, sendJsonEvs_eq, hspec.2.1]
  · intro hle
    rw [hspec.1, List.length_take]
    omega
  · intro hlt
    rw [hspec.1]
    exact List.take_of_length_le (by omega)

/-- C1 witness: relaying a 2-byte file to registered recipient 1. -/
theorem file_relay_to_registered_witness :
    ("b" : String) ≠ "" ∧
    lookup [("b", 1)] "b" = some 1 ∧
    (handleFrame (fun _ => false) [("b", 1)] 0 "a" [7, 8, 9]
        (InFrame.file (some "b") "f" 2) =
      (Ev.send 1 (OutItem.frame (OutFrame.fileHeader "a" "f" 2)) ::
        (relayLoop 1 [7, 8, 9] 2).1, [("b", 1)], List.drop 2 [7, 8, 9]) ∧
    bytesTo 1 (relayLoop 1 [7, 8, 9] 2).1 = List.take 2 [7, 8, 9] ∧
    (2 ≤ List.length [7, 8, 9] →
      (bytesTo 1 (relayLoop 1 [7, 8, 9] 2).1).length = 2) ∧
    (List.length [7, 8, 9] < 2 →
      bytesTo 1 (relayLoop 1 [7, 8, 9] 2).1 = [7, 8, 9]) ∧
    ∀ e ∈ (relayLoop 1 [7, 8, 9] 2).1,
      ∃ c, e = Ev.send 1 (OutItem.chunk c) ∧ 0 < c.length ∧
        c.length ≤ 65536) :=
  ⟨by decide, by decide,
    file_relay_to_registered (fun _ => false) [("b", 1)] 0 1 "a" [7, 8, 9]
      "b" "f" 2 (by decide) (by decide)⟩

/-- C2: a direct message from registered sender `name` to `t` is delivered
as a `msg{from, text}` frame to `t`'s writer when `t` is registered, with
no error to the sender; when `t` is not registered, the sender gets an
`error` frame and nobody receives the message — either way the registry
and the inbound stream are untouched, so the message is dropped, not
queued. -/
theorem direct_message_routing (dead : Nat → Bool) (cs : List (Name × Nat))
    (self : Nat) (name : Name) (stream : List Nat) (t text : String)
    (ht : t ≠ "") :
    (∀ w, lookup cs t = some w →
      handleFrame dead cs self name stream (InFrame.msg (some t) text) =
        ([Ev.acquire, Ev.send w (OutItem.frame (OutFrame.msg name text)),
          Ev.release], cs, stream)) ∧
    (lookup cs t = none →
      handleFrame dead cs self name stream (InFrame.msg (some t) text) =
        ([Ev.acquire,
          Ev.send self (OutItem.frame (OutFrame.error "user not online")),
          Ev.release], cs, stream)) := by
  constructor
  · intro w hw
    simp [handleFrame, truthy, ht, hw, sendJsonEvs_eq]
  · intro hw
    simp [handleFrame, truthy, ht, hw, sendJsonEvs_eq]

/-- C2 witness: delivery to registered "b" and error for unregistered
"z". -/
theorem direct_message_routing_witness :
    ("b" : String) ≠ "" ∧
    (handleFrame (fun _ => false) [("a", 0), ("b", 1)] 0 "a" []
        (InFrame.msg (some "b") "hi") =
      ([Ev.acquire, Ev.send 1 (OutItem.frame (OutFrame.msg "a" "hi")),
        Ev.release], [("a", 0), ("b", 1)], [])) ∧
    (handleFrame (fun _ => false) [("a", 0), ("b", 1)] 0 "a" []
        (InFrame.msg (some "z") "hi") =
      ([Ev.acquire,
        Ev.send 0 (OutItem.frame (OutFrame.error "user not online")),
        Ev.release], [("a", 0), ("b", 1)], [])) :=
  ⟨by decide,
    (direct_message_routing (fun _ => false) [("a", 0), ("b", 1)] 0 "a" []
      "b" "hi" (by decide)).1 1 (by decide),
    (direct_message_routing (fun _ => false) [("a", 0), ("b", 1)] 0 "a" []
      "z" "hi" (by decide)).2 (by decide)⟩

/-- C3: a duplicate registration does NOT leave the registry unchanged
and does NOT leave the existing session unaffected. The new connection
does get the `error` frame and is closed, but `name` was assigned at line
40 before the duplicate check, so the `return` at line 44 unwinds into
the `finally` block, where `del clients[name]` (line 121) deletes the
EXISTING session's registry entry and `broadcast_users()` (line 123) is
triggered — and deadlocks on the lock held since line 119. Evaluated at
the failing input: a second connection (writer 1) re-registering "a"
against registry [("a", 0)]: afterwards the registry is empty (the
legitimate session's entry is gone), the recorded trace has a reentrant
lock acquisition, and the events that actually execute stop right after
the error, the close, and the teardown's lock acquisition — before any
`users` frame. -/
theorem duplicate_registration_damages_registry :
    (registerStep (fun _ => false) [("a", 0)] 1 "a").2.1 = [] ∧
    hasReentrantAcquire (registerStep (fun _ => false) [("a", 0)] 1 "a").1 =
      true ∧
    perform 0 (registerStep (fun _ => false) [("a", 0)] 1 "a").1 =
      [Ev.acquire,
       Ev.send 1 (OutItem.frame (OutFrame.error "name already taken")),
       Ev.close 1, Ev.release, Ev.acquire] :=
  ⟨rfl, rfl, rfl⟩

/-- C4: the successful-registration path inserts the session into the
registry but then, still holding the non-reentrant registry lock, calls
`broadcast_users`, which tries to acquire the same lock: the recorded
trace contains a reentrant acquisition, and the events that actually
execute stop at the first acquire — neither the `ok` reply nor any
`users` broadcast is ever sent. Evaluated at the first registration
("a", writer 0) on an empty registry. -/
theorem registration_success_deadlocks :
    (registerStep (fun _ => false) [] 0 "a").2.1 = [("a", 0)] ∧
    hasReentrantAcquire (registerStep (fun _ => false) [] 0 "a").1 = true ∧
    perform 0 (registerStep (fun _ => false) [] 0 "a").1 = [Ev.acquire] :=
  ⟨rfl, rfl, rfl⟩

/-- C5: the teardown path for a registered session removes the name from
the registry but then, still inside `async with lock:`, calls
`broadcast_users`, which re-acquires the same non-reentrant lock: the
trace has a reentrant acquisition and execution stops at the first
acquire — the connection is never closed and the remaining session "b"
never receives the updated `users` list. Evaluated at teardown of "a"
with registry [("a", 0), ("b", 1)]. -/
theorem teardown_deadlocks :
    (teardownStep (fun _ => false) [("a", 0), ("b", 1)] 0 "a").2 =
      [("b", 1)] ∧
    hasReentrantAcquire
      (teardownStep (fun _ => false) [("a", 0), ("b", 1)] 0 "a").1 = true ∧
    perform 0 (teardownStep (fun _ => false) [("a", 0), ("b", 1)] 0 "a").1 =
      [Ev.acquire] :=
  ⟨rfl, rfl, rfl⟩

/-- C6: a `file` frame whose `to` is missing, empty, or names no
registered session makes the server send one `error` frame to the sender,
discard exactly `size` bytes from the sender's inbound stream (all
remaining bytes when the stream holds fewer), leave the registry
untouched, and hand the correctly positioned stream back to the handler
loop. -/
theorem file_to_unknown_recipient (dead : Nat → Bool)
    (cs : List (Name × Nat)) (self : Nat) (name : Name) (stream : List Nat)
    (dst : Option String) (filename : String) (size : Nat)
    (h : truthy dst = false ∨ lookup cs (dst.getD "") = none) :
    handleFrame dead cs self name stream (InFrame.file dst filename size) =
      ([Ev.send self (OutItem.frame (OutFrame.error "recipient not found"))],
        cs, stream.drop size) ∧
    (stream.length ≤ size →
      (handleFrame dead cs self name stream
        (InFrame.file dst filename size)).2.2 = []) := by
  have hmain : handleFrame dead cs self name stream
      (InFrame.file dst filename size) =
      ([Ev.send self (OutItem.frame (OutFrame.error "recipient not found"))],
        cs, stream.drop size) := by
    rcases h with h | h
    · simp [handleFrame, h, sendJsonEvs_eq]
    · by_cases ht : truthy dst
      · simp [handleFrame, ht, h, sendJsonEvs_eq]
      · simp [handleFrame, ht, sendJsonEvs_eq]
  refine ⟨hmain, ?_⟩
  intro hle
  rw [hmain]
  exact List.drop_eq_nil_of_le hle

/-- C6 witness: a 3-byte body addressed to unregistered "z" is drained
from the 5-byte stream. -/
theorem file_to_unknown_recipient_witness :
    (truthy (some "z") = false ∨ lookup [("b", 1)] ((some "z").getD "") = none) ∧
    (handleFrame (fun _ => false) [("b", 1)] 0 "a" [1, 2, 3, 4, 5]
        (InFrame.file (some "z") "f" 3) =
      ([Ev.send 0 (OutItem.frame (OutFrame.error "recipient not found"))],
        [("b", 1)], List.drop 3 [1, 2, 3, 4, 5])) ∧
    (List.length [1, 2, 3, 4, 5] ≤ 3 →
      (handleFrame (fun _ => false) [("b", 1)] 0 "a" [1, 2, 3, 4, 5]
        (InFrame.file (some "z") "f" 3)).2.2 = []) :=
  ⟨Or.inr (by decide),
    (file_to_unknown_recipient (fun _ => false) [("b", 1)] 0 "a"
      [1, 2, 3, 4, 5] (some "z") "f" 3 (Or.inr (by decide))).1,
    (file_to_unknown_recipient (fun _ => false) [("b", 1)] 0 "a"
      [1, 2, 3, 4, 5] (some "z") "f" 3 (Or.inr (by decide))).2⟩

/-- C7: a `msg` frame with an absent or empty `to` is broadcast: a
`msg{from, text}` frame is sent to every session in the registry snapshot,
including the sender's own session when it is registered (self-delivery is
not suppressed), and the registry is unchanged. -/
theorem broadcast_message_delivery (dead : Nat → Bool)
    (cs : List (Name × Nat)) (self : Nat) (name : Name) (stream : List Nat)
    (dst : Option String) (text : String) (h : truthy dst = false) :
    handleFrame dead cs self name stream (InFrame.msg dst text) =
      (Ev.acquire ::
        cs.map (fun p => Ev.send p.2 (OutItem.frame (OutFrame.msg name text)))
        ++ [Ev.release], cs, stream) ∧
    (∀ p ∈ cs, Ev.send p.2 (OutItem.frame (OutFrame.msg name text)) ∈
      (handleFrame dead cs self name stream (InFrame.msg dst text)).1) ∧
    ((name, self) ∈ cs → Ev.send self (OutItem.frame (OutFrame.msg name text))
      ∈ (handleFrame dead cs self name stream (InFrame.msg dst text)).1) := by
  have hmain : handleFrame dead cs self name stream (InFrame.msg dst text) =
      (Ev.acquire ::
        cs.map (fun p => Ev.send p.2 (OutItem.frame (OutFrame.msg name text)))
        ++ [Ev.release], cs, stream) := by
    simp [handleFrame, h, broadcast_eq]
  have hall : ∀ p ∈ cs, Ev.send p.2 (OutItem.frame (OutFrame.msg name text)) ∈
      (handleFrame dead cs self name stream (InFrame.msg dst text)).1 := by
    intro p hp
    rw [hmain]
    refine List.mem_cons.mpr (Or.inr ?_)
    exact List.mem_append.mpr (Or.inl (List.mem_map.mpr ⟨p, hp, rfl⟩))
  exact ⟨hmain, hall, fun hself => hall (name, self) hself⟩

/-- C7 witness: a broadcast from registered "a" reaches both sessions,
"a" itself included. -/
theorem broadcast_message_delivery_witness :
    truthy none = false ∧
    (handleFrame (fun _ => false) [("a", 0), ("b", 1)] 0 "a" []
        (InFrame.msg none "hi") =
      (Ev.acquire ::
        List.map (fun p => Ev.send p.2 (OutItem.frame (OutFrame.msg "a" "hi")))
          [("a", 0), ("b", 1)] ++ [Ev.release], [("a", 0), ("b", 1)], [])) ∧
    (("a", 0) ∈ ([("a", 0), ("b", 1)] : List (Name × Nat)) →
      Ev.send 0 (OutItem.frame (OutFrame.msg "a" "hi")) ∈
        (handleFrame (fun _ => false) [("a", 0), ("b", 1)] 0 "a" []
          (InFrame.msg none "hi")).1) :=
  ⟨rfl,
    (broadcast_message_delivery (fun _ => false) [("a", 0), ("b", 1)] 0 "a"
      [] none "hi" rfl).1,
    (broadcast_message_delivery (fun _ => false) [("a", 0), ("b", 1)] 0 "a"
      [] none "hi" rfl).2.2⟩

/-- C8: during a broadcast over registry [("b", 1), ("c", 2)] in which
writer 1's peer is dead (its `drain` raises), "c" still receives the
frame, but "b" is NOT evicted: `send_json` swallows the drain exception
inside its own `try/except: pass`, so `broadcast`'s `except` branch that
fills `to_remove` can never run, the registry comes back unchanged, and
"b" keeps appearing in subsequent `users` snapshots. This refutes the
eviction half of the claim while confirming the isolation half. -/
theorem broadcast_dead_peer_not_evicted :
    broadcast (fun v => v == 1) [("b", 1), ("c", 2)] (OutFrame.msg "a" "hi") =
      ([Ev.acquire, Ev.send 1 (OutItem.frame (OutFrame.msg "a" "hi")),
        Ev.send 2 (OutItem.frame (OutFrame.msg "a" "hi")), Ev.release],
       [("b", 1), ("c", 2)]) ∧
    (broadcast (fun v => v == 1) [("b", 1), ("c", 2)]
      (OutFrame.msg "a" "hi")).2.map (fun p => p.1) = ["b", "c"] :=
  ⟨rfl, rfl⟩

/-- C9 counterexample: a broadcast over a one-member registry performs its
network write while the registry lock is held, so it is false that no
network write is ever performed under the lock. -/
theorem broadcast_sends_while_lock_held :
    sendWhileHeld
      (broadcast (fun _ => false) [("a", 0)] (OutFrame.users ["a"])).1 =
      true :=
  rfl

/-- C9 as amended: broadcasts do not release the registry lock before
sending — for every broadcast over a nonempty registry, a network write
is performed while the registry lock is held, since `broadcast`
(src/server.py lines 130-140) wraps its whole send loop in
`async with lock:`. -/
theorem broadcast_holds_lock_during_sends (dead : Nat → Bool)
    (cs : List (Name × Nat)) (obj : OutFrame) (h : cs ≠ []) :
    sendWhileHeld (broadcast dead cs obj).1 = true := by
  obtain ⟨p, rest, rfl⟩ := List.exists_cons_of_ne_nil h
  rw [broadcast_eq]
  simp [sendWhileHeld, sendWhileHeldFrom]

/-- C9 witness: a broadcast over a singleton registry sends under the
lock. -/
theorem broadcast_holds_lock_during_sends_witness :
    (([("a", 0)] : List (Name × Nat)) ≠ []) ∧
    sendWhileHeld
      (broadcast (fun _ => false) [("a", 0)] (OutFrame.msg "a" "hi")).1 =
      true :=
  ⟨by decide,
    broadcast_holds_lock_during_sends (fun _ => false) [("a", 0)]
      (OutFrame.msg "a" "hi") (by decide)⟩

/-- C10: `send_json` never raises to its caller: the frame is buffered by
`writer.write`, the only failing operation is the `drain` inside
`try/except: pass`, and the result is identical for a dead and for a live
peer — a write to a dead peer is indistinguishable from a successful
delivery at every call site. -/
theorem send_json_never_raises (dead : Nat → Bool) (w : Nat)
    (obj : OutFrame) :
    send_json dead w obj = Except.ok [Ev.send w (OutItem.frame obj)] ∧
    send_json dead w obj = send_json (fun _ => false) w obj := by
  refine ⟨send_json_ok dead w obj, ?_⟩
  rw [send_json_ok, send_json_ok]

end Server
